import Mathlib

/-!
Verification of the inline markdown-span parser (`295_inlines.py`).

The development shallowly embeds the inline parser: each regular-expression
rule of `InlineParser` is translated into an executable matcher over
`List Char` (a small backtracking pattern-combinator engine reproduces the
backtracking preference order of Python's `re` module: leftmost match wins,
alternatives are tried left to right, greedy repetition prefers longer
matches, lazy repetition prefers shorter ones), and each semantic action
(`parse_escape`, `parse_auto_link`, `parse_std_link`, `parse_ref_link`,
`parse_footnote`, `parse_codespan`, `tokenize_link`, ...) is translated into
a Lean function over an explicit parse `State`.

The scanning engine itself (`ScannerParser` / the `scanner` module) and the
helpers `escape_url` and `unikey` are external collaborators whose code is
not part of the sources; they are modelled from the specification where
needed (each such definition is marked `Modelled from the spec:`).
`escape_url` is kept as an explicit function parameter `esc` everywhere, so
theorems quantify over the escaping collaborator.

The renderer is taken in tree mode (`IS_TREE`): tokens are materialised as
an inductive `Token` type, which is the structural image of the tuples the
actions emit.
-/

/-! ## Character helpers (ASCII model of the Python character classes) -/

/-- Python `\s` (ASCII range), also the characters `str.strip()` removes. -/
def pyIsSpace (c : Char) : Bool :=
  c == ' ' || c == '\t' || c == '\n' || c == '\r' || c == '\x0b' || c == '\x0c'

/-- ASCII case folding, the model of Python `str.lower()`. -/
def asciiLower (c : Char) : Char :=
  if 'A' ≤ c ∧ c ≤ 'Z' then Char.ofNat (c.toNat + 32) else c

/-- Python `\w` (ASCII): letters, digits and underscore; used for `\b`. -/
def isWordChar (c : Char) : Bool := c.isAlphanum || c == '_'

/-- The `PUNCTUATION` character set of the source:
`\\!"#$%&'()*+,./:;<=>?@\[\]^`\x7b\x7d|_~-` (backslash, brackets, braces,
backtick and the other ASCII punctuation listed there). -/
def PUNCT_CHARS : List Char :=
  ['\\', '!', '"', '#', '$', '%', '&', '\x27', '(', ')', '*', '+', ',', '.',
   '/', ':', ';', '<', '=', '>', '?', '@', '[', ']', '^', '\x60', '\x7b',
   '\x7d', '|', '_', '~', '-']

def isPunct (c : Char) : Bool := PUNCT_CHARS.contains c

def isCtrl (c : Char) : Bool := c.toNat ≤ 0x1f

/-- Abbreviation used when a `List Char` is packed back into a `String`. -/
def str (l : List Char) : String := String.mk l

/-! ## Tokens

Structural image of the tuples the semantic actions return, in tree mode.
A `link` token's text slot is dynamically typed in the source: the autolink
action passes the raw matched body (a string), while `tokenize_link` passes
the recursively rendered token list; `LinkBody` records that union. -/

mutual
inductive Token where
  | text (s : String)
  | link (url : String) (body : LinkBody) (title : Option String)
  | image (url : String) (alt : String) (title : Option String)
  | emphasis (children : List Token)
  | strong (children : List Token)
  | codespan (code : String)
  | strikethrough (children : List Token)
  | linebreak
  | inlineHtml (raw : String)
  | footnoteRef (key : String) (index : Nat)

inductive LinkBody where
  | raw (s : String)
  | toks (children : List Token)
end

/-! ## Parse state

The mutable `state` dict threaded through one top-level render.
`state.get('def_links')` / `state.get('def_footnotes')` being absent and
being empty are both falsy in the source, so both are modelled by the empty
list.  `state.get('footnote_index', 0)` is modelled by a `Nat` field that
starts at 0, and the `_in_link` guard (`state.get('_in_link')`, falsy when
missing) by a `Bool` field. -/

structure State where
  def_links : List (String × String × Option String)
  def_footnotes : List String
  footnote_index : Nat
  footnotes : List String
  in_link : Bool
deriving Repr, DecidableEq

/-- `def_links.get(key)` on the association-list model. -/
def lookupLink : List (String × String × Option String) → String →
    Option (String × Option String)
  | [], _ => none
  | (k, v) :: r, key => if k = key then some v else lookupLink r key

/-! ## String helpers used by the actions -/

/-- `ESCAPE_CHAR.sub(r'\1', s)`: replace every backslash followed by an
ASCII punctuation character by that character, scanning left to right over
non-overlapping matches. -/
def escapeCharSub : List Char → List Char
  | [] => []
  | '\\' :: c :: r =>
    if isPunct c then c :: escapeCharSub r else '\\' :: escapeCharSub (c :: r)
  | c :: r => c :: escapeCharSub r

/-- `str.strip()` (ASCII whitespace model). -/
def pyStrip (l : List Char) : List Char :=
  ((l.dropWhile pyIsSpace).reverse.dropWhile pyIsSpace).reverse

/-- `re.sub(r'[ \n]+', ' ', s)`: collapse each maximal run of spaces and
newlines to a single space. -/
def collapseSpaceNL : List Char → List Char
  | [] => []
  | [c] => if c == ' ' || c == '\n' then [' '] else [c]
  | c :: d :: r =>
    if c == ' ' || c == '\n' then
      if d == ' ' || d == '\n' then collapseSpaceNL (d :: r)
      else ' ' :: collapseSpaceNL (d :: r)
    else c :: collapseSpaceNL (d :: r)

/-- `s.split()` of Python: split on whitespace runs, dropping empty parts. -/
def splitWsAux : List Char → List Char → List (List Char)
  | [], acc => if acc.isEmpty then [] else [acc.reverse]
  | c :: r, acc =>
    if pyIsSpace c then
      if acc.isEmpty then splitWsAux r [] else acc.reverse :: splitWsAux r []
    else splitWsAux r (c :: acc)

def splitWs (l : List Char) : List (List Char) := splitWsAux l []

/-- Modelled from the spec: the reference-key normalization collaborator
(`unikey`, defined in the missing `scanner` module).  Per §6 its contract is
case-fold plus internal-whitespace collapse: two labels differing only by
case or run-of-whitespace width normalize identically. -/
def unikey (l : List Char) : List Char :=
  (List.intercalate [' '] (splitWs l)).map asciiLower

/-- Python `m.group(2) or text`: `None` and the empty string are falsy. -/
def pyOr (g : Option (List Char)) (text : List Char) : List Char :=
  match g with
  | none => text
  | some s => if s.isEmpty then text else s

/-! ## Pattern-combinator engine

Executable model of Python `re` matching for the rule patterns.  A parser
is applied at one position of the subject; it receives the characters
before that position in reverse (for lookbehind and `\b`) and the
characters from that position on, and returns the list of all candidate
matches in exactly the backtracking preference order of Python's `re`
module: alternatives left to right, greedy repetition longest first, lazy
repetition shortest first.  The overall match of a pattern at a position is
the head of its candidate list. -/

structure PRes where
  consumed : List Char
  groups : List (Nat × List Char)
  rest : List Char
deriving Repr

/-- A pattern: arguments are the reversed prefix before the current
position and the remaining input. -/
def Pat : Type := List Char → List Char → List PRes

/-- The empty pattern (matches nothing of the input, one candidate). -/
def pemp : Pat := fun _ rest => [⟨[], [], rest⟩]

/-- The failing pattern (no candidate). -/
def pfail : Pat := fun _ _ => []

/-- Single literal character. -/
def pchar (c : Char) : Pat := fun _ rest =>
  match rest with
  | x :: r => if x == c then [⟨[x], [], r⟩] else []
  | [] => []

/-- Single character satisfying a predicate (a character class). -/
def pclass (f : Char → Bool) : Pat := fun _ rest =>
  match rest with
  | x :: r => if f x then [⟨[x], [], r⟩] else []
  | [] => []

/-- Any single character, `[\s\S]`. -/
def pany : Pat := pclass (fun _ => true)

/-- Literal character sequence. -/
def pstr (cs : List Char) : Pat := fun _ rest =>
  if cs.isPrefixOf rest then [⟨cs, [], rest.drop cs.length⟩] else []

/-- Concatenation; the second pattern sees the first one's consumption as
part of its reversed prefix (so lookbehind works mid-pattern). -/
def pseq (p q : Pat) : Pat := fun prevRev rest =>
  (p prevRev rest).flatMap fun a =>
    (q (a.consumed.reverse ++ prevRev) a.rest).map fun b =>
      ⟨a.consumed ++ b.consumed, a.groups ++ b.groups, b.rest⟩

def pseqs (ps : List Pat) : Pat := ps.foldr pseq pemp

/-- Ordered alternation `p|q`: all candidates of `p` before those of `q`. -/
def palt (p q : Pat) : Pat := fun prevRev rest => p prevRev rest ++ q prevRev rest

def palts (ps : List Pat) : Pat := ps.foldr palt pfail

/-- Capturing group with index `i`. -/
def pgroup (i : Nat) (p : Pat) : Pat := fun prevRev rest =>
  (p prevRev rest).map fun a => ⟨a.consumed, a.groups ++ [(i, a.consumed)], a.rest⟩

/-- Greedy option `p?`: prefer taking `p`. -/
def poptG (p : Pat) : Pat := palt p pemp

/-- Greedy star `p*` (fuelled): prefer more iterations; iterations must
consume input, as in `re`. -/
def pmanyG : Nat → Pat → Pat
  | 0, _ => pemp
  | n + 1, p => fun prevRev rest =>
    ((p prevRev rest).flatMap fun a =>
      if a.consumed.isEmpty then []
      else
        (pmanyG n p (a.consumed.reverse ++ prevRev) a.rest).map fun b =>
          ⟨a.consumed ++ b.consumed, a.groups ++ b.groups, b.rest⟩)
    ++ [⟨[], [], rest⟩]

/-- Lazy star `p*?` (fuelled): prefer fewer iterations. -/
def pmanyL : Nat → Pat → Pat
  | 0, _ => pemp
  | n + 1, p => fun prevRev rest =>
    ⟨[], [], rest⟩ ::
    ((p prevRev rest).flatMap fun a =>
      if a.consumed.isEmpty then []
      else
        (pmanyL n p (a.consumed.reverse ++ prevRev) a.rest).map fun b =>
          ⟨a.consumed ++ b.consumed, a.groups ++ b.groups, b.rest⟩)

/-- Greedy plus `p+`. -/
def pplusG (n : Nat) (p : Pat) : Pat := pseq p (pmanyG n p)

/-- Lazy plus `p+?`. -/
def pplusL (n : Nat) (p : Pat) : Pat := pseq p (pmanyL n p)

/-- Greedy bounded repetition `p\x7blo,hi\x7d`: prefer more iterations. -/
def prepG (p : Pat) : Nat → Nat → Pat
  | lo, 0 => if lo = 0 then pemp else pfail
  | lo, hi + 1 => fun prevRev rest =>
    ((p prevRev rest).flatMap fun a =>
      if a.consumed.isEmpty then []
      else
        (prepG p (lo - 1) hi (a.consumed.reverse ++ prevRev) a.rest).map fun b =>
          ⟨a.consumed ++ b.consumed, a.groups ++ b.groups, b.rest⟩)
    ++ (if lo = 0 then [⟨[], [], rest⟩] else [])

/-- Negative lookahead `(?!p)`. -/
def pneg (p : Pat) : Pat := fun prevRev rest =>
  if (p prevRev rest).isEmpty then [⟨[], [], rest⟩] else []

/-- Positive lookahead `(?=p)`. -/
def ppos (p : Pat) : Pat := fun prevRev rest =>
  if (p prevRev rest).isEmpty then [] else [⟨[], [], rest⟩]

/-- Single-character negative lookbehind, e.g. `(?<!\\)`. -/
def pnotBehind (f : Char → Bool) : Pat := fun prevRev rest =>
  match prevRev.head? with
  | some c => if f c then [] else [⟨[], [], rest⟩]
  | none => [⟨[], [], rest⟩]

/-- Single-character positive lookbehind `(?<=c)`. -/
def pbehindIs (c : Char) : Pat := fun prevRev rest =>
  if prevRev.head? == some c then [⟨[], [], rest⟩] else []

/-- Word boundary `\b`. -/
def pwordB : Pat := fun prevRev rest =>
  let a := match prevRev.head? with | some c => isWordChar c | none => false
  let b := match rest.head? with | some c => isWordChar c | none => false
  if a ≠ b then [⟨[], [], rest⟩] else []

/-- `$` without MULTILINE: end of input, or just before a final newline. -/
def pdollar : Pat := fun _ rest =>
  if rest.isEmpty || rest == ['\n'] then [⟨[], [], rest⟩] else []

/-! ## The rule patterns

Each definition transliterates one regular-expression constant of
`InlineParser` into the combinator language, keeping the source's name. -/

/-- Repetition fuel; every use is bounded by the subject length anyway
because starred sub-patterns must consume input. -/
def FUEL : Nat := 1000

def wsP : Pat := pclass pyIsSpace

/-- `ESCAPE = \\[PUNCTUATION]`, as a plain matcher (the whole match is the
backslash and the escaped punctuation character). -/
def matchEscape : List Char → Option (List Char)
  | '\\' :: c :: _ => if isPunct c then some ['\\', c] else none
  | _ => none

/-- `FOOTNOTE = \[\^([^\]]+)\]`: `[^`, a nonempty run up to the first `]`,
then `]`; returns (whole match, group 1). -/
def matchFootnote (rest : List Char) : Option (List Char × List Char) :=
  match rest with
  | '[' :: '^' :: r =>
    let inner := r.takeWhile (fun c => !(c == ']'))
    if inner.isEmpty then none
    else
      match r.drop inner.length with
      | ']' :: _ => some ('[' :: '^' :: (inner ++ [']']), inner)
      | _ => none
  | _ => none

/-- The `(?:\\| {2,})\n` core of `LINEBREAK`: a backslash, or a greedy run
of at least two spaces, followed by a newline. -/
def linebreakCore : List Char → Option (List Char)
  | '\\' :: '\n' :: _ => some ['\\', '\n']
  | rest =>
    if 2 ≤ (rest.takeWhile (fun c => c == ' ')).length then
      match rest.drop (rest.takeWhile (fun c => c == ' ')).length with
      | '\n' :: _ => some (rest.takeWhile (fun c => c == ' ') ++ ['\n'])
      | _ => none
    else none

/-- `LINEBREAK = (?:\\| {2,})\n(?!\s*$)`.  The negative lookahead `\s*$`
succeeds exactly when the remaining input is all whitespace (with `$`
matching at the end or before a final newline, itself whitespace), so the
rule matches only when non-whitespace input follows the newline. -/
def matchLinebreak (rest : List Char) : Option (List Char) :=
  match linebreakCore rest with
  | none => none
  | some m =>
    if (rest.drop m.length).all pyIsSpace then none else some m

/-- Closing search for `CODESPAN`: lazily extend the content (at least one
character) until a position where the previous character is not a backtick
(`(?<!` ``` `` ``` `)`), the next `n` characters are backticks (`\1`) and the
character after them is not a backtick (`(?!` ``` `` ``` `)`). -/
def codespanClose (n : Nat) : Nat → List Char → List Char →
    Option (List Char × List Char)
  | 0, _, _ => none
  | fuel + 1, consRev, rem =>
    if !consRev.isEmpty && !(consRev.head? == some '\x60')
        && (List.replicate n '\x60').isPrefixOf rem
        && !((rem.drop n).head? == some '\x60') then
      some (consRev.reverse, rem.drop n)
    else
      match rem with
      | [] => none
      | c :: r => codespanClose n fuel (c :: consRev) r

/-- `CODESPAN = (?<!\\|`)(?:\\\\)*(`+)(?!`)([\s\S]+?)(?<!`)\1(?!`)` (with
backticks): lookbehind excludes a preceding backslash or backtick, an even
run of backslashes, a maximal run of opening backticks (group 1), then the
lazy content (group 2) closed by the same-length backtick run.  Returns
(whole match, group 2). -/
def matchCodespan (prev : Option Char) (rest : List Char) :
    Option (List Char × List Char) :=
  if prev == some '\\' || prev == some '\x60' then none
  else
    let slashes := rest.takeWhile (fun c => c == '\\')
    if slashes.length % 2 == 0 then
      let r1 := rest.drop slashes.length
      let ticks := r1.takeWhile (fun c => c == '\x60')
      if ticks.isEmpty then none
      else
        match codespanClose ticks.length (r1.length + 1) []
            (r1.drop ticks.length) with
        | none => none
        | some (content, _) =>
          some (slashes ++ ticks ++ content ++ ticks, content)
    else none

/-- `LINK_LABEL = \[((?:\[[^\[\]]*\]|\\[\[\]]?|`[^`]*`|[^\[\]\\])*?)\]`
(with backticks): a lazy star over bracketed units, backslash escapes,
backtick code units and plain characters, captured as group 1. -/
def labelAtom : Pat :=
  palts [
    pseqs [pchar '[',
      pmanyG FUEL (pclass (fun c => !(c == '[') && !(c == ']'))), pchar ']'],
    pseq (pchar '\\') (poptG (pclass (fun c => c == '[' || c == ']'))),
    pseqs [pchar '\x60', pmanyG FUEL (pclass (fun c => !(c == '\x60'))),
      pchar '\x60'],
    pclass (fun c => !(c == '[') && !(c == ']') && !(c == '\\'))]

def LINK_LABEL : Pat :=
  pseqs [pchar '[', pgroup 1 (pmanyL FUEL labelAtom), pchar ']']

/-- Angle-bracketed destination `<(?:\\[<>]?|[^\s<>\\])*>` of `STD_LINK`. -/
def destAngle : Pat :=
  pseqs [pchar '<',
    pmanyG FUEL (palt
      (pseq (pchar '\\') (poptG (pclass (fun c => c == '<' || c == '>'))))
      (pclass (fun c =>
        !pyIsSpace c && !(c == '<') && !(c == '>') && !(c == '\\')))),
    pchar '>']

/-- Bare destination `(?:\\[()]?|\([^\s\x00-\x1f\\]*\)|[^\s\x00-\x1f()\\])*?`
of `STD_LINK`. -/
def destPlain : Pat :=
  pmanyL FUEL (palts [
    pseq (pchar '\\') (poptG (pclass (fun c => c == '(' || c == ')'))),
    pseqs [pchar '(',
      pmanyG FUEL (pclass (fun c => !pyIsSpace c && !isCtrl c && !(c == '\\'))),
      pchar ')'],
    pclass (fun c =>
      !pyIsSpace c && !isCtrl c && !(c == '(') && !(c == ')') && !(c == '\\'))])

/-- Double-quoted title `"(?:\\"?|[^"\\])*"`. -/
def titleDQ : Pat :=
  pseqs [pchar '"',
    pmanyG FUEL (palt (pseq (pchar '\\') (poptG (pchar '"')))
      (pclass (fun c => !(c == '"') && !(c == '\\')))),
    pchar '"']

/-- Single-quoted title `'(?:\\'?|[^'\\])*'`. -/
def titleSQ : Pat :=
  pseqs [pchar '\x27',
    pmanyG FUEL (palt (pseq (pchar '\\') (poptG (pchar '\x27')))
      (pclass (fun c => !(c == '\x27') && !(c == '\\')))),
    pchar '\x27']

/-- Parenthesised title `\((?:\\\)?|[^)\\])*\)`. -/
def titleParen : Pat :=
  pseqs [pchar '(',
    pmanyG FUEL (palt (pseq (pchar '\\') (poptG (pchar ')')))
      (pclass (fun c => !(c == ')') && !(c == '\\')))),
    pchar ')']

/-- `STD_LINK`: `!?` + `LINK_LABEL` + `\(\s*` + destination (group 2) +
optional `\s+` title (group 3) + `\s*\)`. -/
def STD_LINK : Pat :=
  pseqs [
    poptG (pchar '!'), LINK_LABEL, pchar '(', pmanyG FUEL wsP,
    pgroup 2 (palt destAngle destPlain),
    poptG (pseq (pplusG FUEL wsP) (pgroup 3 (palts [titleDQ, titleSQ, titleParen]))),
    pmanyG FUEL wsP, pchar ')']

/-- One unit of the reference-key part `(?:[^\\\[\]]|ESCAPE)` of
`REF_LINK` / `REF_LINK2`. -/
def refAtom : Pat :=
  palt (pclass (fun c => !(c == '\\') && !(c == '[') && !(c == ']')))
    (pseq (pchar '\\') (pclass isPunct))

/-- `REF_LINK = !?LINK_LABEL\[((?:[^\\\[\]]|ESCAPE)\x7b0,1000\x7d)\]`. -/
def REF_LINK : Pat :=
  pseqs [poptG (pchar '!'), LINK_LABEL, pchar '[',
    pgroup 2 (prepG refAtom 0 1000), pchar ']']

/-- `REF_LINK2 = !?\[((?:[^\\\[\]]|ESCAPE)\x7b0,1000\x7d)\]`. -/
def REF_LINK2 : Pat :=
  pseqs [poptG (pchar '!'), pchar '[',
    pgroup 1 (prepG refAtom 0 1000), pchar ']']

/-- Scheme part `[A-Za-z][A-Za-z0-9+.-]\x7b1,31\x7d:[^ <>]*?` of
`AUTO_LINK`. -/
def isSchemeChar (c : Char) : Bool :=
  c.isAlphanum || c == '+' || c == '.' || c == '-'

def schemeBody : Pat :=
  pseqs [pclass Char.isAlpha, prepG (pclass isSchemeChar) 1 31, pchar ':',
    pmanyL FUEL (pclass (fun c => !(c == ' ') && !(c == '<') && !(c == '>')))]

/-- Local-part characters of the email alternative of `AUTO_LINK`:
`[A-Za-z0-9.!#$%&'*+/=?^_` ``` ` ``` `\x7b|\x7d~-]`. -/
def isEmailLocalChar (c : Char) : Bool :=
  c.isAlphanum ||
  ['.', '!', '#', '$', '%', '&', '\x27', '*', '+', '/', '=', '?', '^', '_',
   '\x60', '\x7b', '|', '\x7d', '~', '-'].contains c

/-- `[A-Za-z0-9](?:[A-Za-z0-9-]\x7b0,61\x7d[A-Za-z0-9])?`: one domain
label. -/
def emailDomainLabel : Pat :=
  pseq (pclass Char.isAlphanum)
    (poptG (pseq (prepG (pclass (fun c => c.isAlphanum || c == '-')) 0 61)
      (pclass Char.isAlphanum)))

def emailBody : Pat :=
  pseqs [pplusG FUEL (pclass isEmailLocalChar), pchar '@', emailDomainLabel,
    pmanyG FUEL (pseq (pchar '.') emailDomainLabel)]

/-- `AUTO_LINK = (?<!\\)(?:\\\\)*<(scheme-or-email)>` with the body as
group 1. -/
def AUTO_LINK : Pat :=
  pseqs [pnotBehind (fun c => c == '\\'), pmanyG FUEL (pstr ['\\', '\\']),
    pchar '<', pgroup 1 (palt schemeBody emailBody), pchar '>']

/-- `EMPHASIS`, four alternatives in source order. -/
def EMPHASIS : Pat :=
  palts [
    pseqs [pwordB, pchar '_', pclass (fun c => !pyIsSpace c && !(c == '_')),
      poptG (pseq (pbehindIs '\\') (pchar '_')), pchar '_'],
    pseqs [pchar '*', pclass (fun c => !pyIsSpace c && !(c == '*')),
      poptG (pseq (pbehindIs '\\') (pchar '*')), pchar '*'],
    pseqs [pwordB, pchar '_', pclass (fun c => !pyIsSpace c && !(c == '_')),
      pmanyL FUEL pany, pclass (fun c => !pyIsSpace c && !(c == '_')),
      pchar '_',
      pneg (palt (pchar '_') (pclass (fun c => !pyIsSpace c && !isPunct c))),
      pwordB],
    pseqs [pchar '*',
      pclass (fun c =>
        !pyIsSpace c && !(c == '*') && !(c == '"') && !(c == '<') && !(c == '[')),
      pmanyL FUEL pany, pclass (fun c => !pyIsSpace c && !(c == '*')),
      pchar '*']]

/-- `STRONG`, four alternatives in source order. -/
def STRONG : Pat :=
  palts [
    pseqs [pwordB, pstr ['_', '_'],
      pclass (fun c => !pyIsSpace c && !(c == '_')), pstr ['_', '_'],
      pneg (pchar '_'), pwordB],
    pseqs [pstr ['*', '*'], pclass (fun c => !pyIsSpace c && !(c == '*')),
      pstr ['*', '*'], pneg (pchar '*')],
    pseqs [pwordB, pstr ['_', '_'], pclass (fun c => !pyIsSpace c),
      pmanyL FUEL pany, pclass (fun c => !pyIsSpace c), pstr ['_', '_'],
      pneg (pchar '_'), pwordB],
    pseqs [pstr ['*', '*'], pclass (fun c => !pyIsSpace c),
      pmanyL FUEL pany, pclass (fun c => !pyIsSpace c), pstr ['*', '*'],
      pneg (pchar '*')]]

/-- `STRIKETHROUGH = ~~(?=\S)([\s\S]*?\S)~~`. -/
def STRIKETHROUGH : Pat :=
  pseqs [pstr ['~', '~'], ppos (pclass (fun c => !pyIsSpace c)),
    pgroup 1 (pseq (pmanyL FUEL pany) (pclass (fun c => !pyIsSpace c))),
    pstr ['~', '~']]

/-- `HTML_TAGNAME = [A-Za-z][A-Za-z0-9-]*`. -/
def tagNameP : Pat :=
  pseq (pclass Char.isAlpha) (pmanyG FUEL (pclass (fun c => c.isAlphanum || c == '-')))

/-- `HTML_ATTRIBUTES`: `(?:\s+[A-Za-z_:][A-Za-z0-9_.:-]*`
`(?:\s*=\s*(?:[^ "'=<>` ``` ` ``` `]+|'[^']*?'|"[^"]*?"))?)*`. -/
def attrValueP : Pat :=
  pseqs [pmanyG FUEL wsP, pchar '=', pmanyG FUEL wsP,
    palts [
      pplusG FUEL (pclass (fun c =>
        !(c == ' ') && !(c == '"') && !(c == '\x27') && !(c == '=') &&
        !(c == '<') && !(c == '>') && !(c == '\x60'))),
      pseqs [pchar '\x27', pmanyL FUEL (pclass (fun c => !(c == '\x27'))),
        pchar '\x27'],
      pseqs [pchar '"', pmanyL FUEL (pclass (fun c => !(c == '"'))),
        pchar '"']]]

def attrP : Pat :=
  pseqs [pplusG FUEL wsP,
    pclass (fun c => c.isAlpha || c == '_' || c == ':'),
    pmanyG FUEL (pclass (fun c =>
      c.isAlphanum || c == '_' || c == '.' || c == ':' || c == '-')),
    poptG attrValueP]

/-- `INLINE_HTML`, six alternatives in source order: open tag, close tag,
comment, processing instruction, doctype, cdata. -/
def INLINE_HTML : Pat :=
  palts [
    pseqs [pnotBehind (fun c => c == '\\'), pchar '<', tagNameP,
      pmanyG FUEL attrP, pmanyG FUEL wsP, poptG (pchar '/'), pchar '>'],
    pseqs [pnotBehind (fun c => c == '\\'), pstr ['<', '/'], tagNameP,
      pmanyG FUEL wsP, pchar '>'],
    pseqs [pnotBehind (fun c => c == '\\'), pstr ['<', '!', '-', '-'],
      pneg (palt (pchar '>') (pstr ['-', '>'])),
      pplusL FUEL (pseq (pneg (pstr ['-', '-'])) pany),
      pnotBehind (fun c => c == '-'), pstr ['-', '-', '>']],
    pseqs [pnotBehind (fun c => c == '\\'), pstr ['<', '?'], pplusL FUEL pany,
      pstr ['?', '>']],
    pseqs [pnotBehind (fun c => c == '\\'), pstr ['<', '!'],
      pclass (fun c => 'A' ≤ c && c ≤ 'Z'), pplusL FUEL pany, pchar '>'],
    pseqs [pnotBehind (fun c => c == '\\'),
      pstr ['<', '!', '[', 'C', 'D', 'A', 'T', 'A'], pplusL FUEL pany,
      pstr [']', ']', '>']]]

/-! ## The rule table and the scanning engine -/

/-- The rule names, in the priority order of `RULE_NAMES`. -/
inductive RuleName where
  | escape | inline_html | auto_link | footnote | std_link | ref_link
  | ref_link2 | strong | emphasis | codespan | strikethrough | linebreak
deriving Repr, DecidableEq

/-- `RULE_NAMES` of the source: the default rule set, earlier entries win
priority ties. -/
def RULE_NAMES : List RuleName :=
  [.escape, .inline_html, .auto_link, .footnote, .std_link, .ref_link,
   .ref_link2, .strong, .emphasis, .codespan, .strikethrough, .linebreak]

/-- The data a semantic action reads from a match object: the whole match
`m.group(0)` and the capture groups of that rule's own pattern (absent
groups are `none`). -/
structure MatchData where
  whole : List Char
  g1 : Option (List Char)
  g2 : Option (List Char)
  g3 : Option (List Char)
deriving Repr

/-- Run a combinator pattern anchored at position `pos` of `s`; the overall
match is the first candidate in backtracking preference order. -/
def runPat (p : Pat) (s : List Char) (pos : Nat) : Option PRes :=
  (p ((s.take pos).reverse) (s.drop pos)).head?

def PRes.group (a : PRes) (i : Nat) : Option (List Char) :=
  (a.groups.find? (fun g => g.1 == i)).map (fun g => g.2)

/-- Try one rule's pattern at one position. -/
def matchAt : RuleName → List Char → Nat → Option MatchData
  | .escape, s, pos =>
    (matchEscape (s.drop pos)).map fun w => ⟨w, none, none, none⟩
  | .inline_html, s, pos =>
    (runPat INLINE_HTML s pos).map fun a => ⟨a.consumed, none, none, none⟩
  | .auto_link, s, pos =>
    (runPat AUTO_LINK s pos).map fun a => ⟨a.consumed, a.group 1, none, none⟩
  | .footnote, s, pos =>
    (matchFootnote (s.drop pos)).map fun m => ⟨m.1, some m.2, none, none⟩
  | .std_link, s, pos =>
    (runPat STD_LINK s pos).map fun a =>
      ⟨a.consumed, a.group 1, a.group 2, a.group 3⟩
  | .ref_link, s, pos =>
    (runPat REF_LINK s pos).map fun a => ⟨a.consumed, a.group 1, a.group 2, none⟩
  | .ref_link2, s, pos =>
    (runPat REF_LINK2 s pos).map fun a => ⟨a.consumed, a.group 1, none, none⟩
  | .strong, s, pos =>
    (runPat STRONG s pos).map fun a => ⟨a.consumed, none, none, none⟩
  | .emphasis, s, pos =>
    (runPat EMPHASIS s pos).map fun a => ⟨a.consumed, none, none, none⟩
  | .codespan, s, pos =>
    (matchCodespan ((s.take pos).reverse.head?) (s.drop pos)).map fun m =>
      ⟨m.1, none, some m.2, none⟩
  | .strikethrough, s, pos =>
    (runPat STRIKETHROUGH s pos).map fun a => ⟨a.consumed, a.group 1, none, none⟩
  | .linebreak, s, pos =>
    (matchLinebreak (s.drop pos)).map fun w => ⟨w, none, none, none⟩

/-- First rule of the active set matching at this position (ties between
rules at the same start position are broken by rule order). -/
def tryRules : List RuleName → List Char → Nat → Option (RuleName × MatchData)
  | [], _, _ => none
  | r :: rs, s, pos =>
    match matchAt r s pos with
    | some m => if m.whole.isEmpty then tryRules rs s pos else some (r, m)
    | none => tryRules rs s pos

/-- Modelled from the spec: the Rule Scanning Engine (§4.1), whose code
(the `scanner` module) is not among the sources.  Maintain a cursor; find
the smallest position at or after it where some rule matches, preferring
earlier-declared rules at equal start. -/
def findNext (rules : List RuleName) (s : List Char) :
    Nat → Nat → Option (Nat × RuleName × MatchData)
  | _, 0 => none
  | pos, fuel + 1 =>
    if s.length < pos then none
    else
      match tryRules rules s pos with
      | some (r, m) => some (pos, r, m)
      | none => findNext rules s (pos + 1) fuel

inductive ScanItem where
  | text (t : List Char)
  | rule (r : RuleName) (m : MatchData)
deriving Repr

/-- Modelled from the spec: the scan loop of §4.1.  Emit the gap before the
winning match as a `text` pseudo-match, emit the match, advance the cursor
past it; when no rule matches in the remainder, emit the remainder as final
text.  (All rule patterns consume at least one character, so the cursor
always advances.) -/
def scanFrom (rules : List RuleName) (s : List Char) : Nat → Nat → List ScanItem
  | 0, pos => if pos < s.length then [.text (s.drop pos)] else []
  | fuel + 1, pos =>
    if s.length ≤ pos then []
    else
      match findNext rules s pos (s.length + 1 - pos) with
      | none => [.text (s.drop pos)]
      | some (p, r, m) =>
        (if pos < p then [ScanItem.text ((s.drop pos).take (p - pos))] else [])
        ++ ScanItem.rule r m :: scanFrom rules s fuel (p + m.whole.length)

/-- `_scan(s, state, rules)` over the whole input. -/
def scan (rules : List RuleName) (s : List Char) : List ScanItem :=
  scanFrom rules s (s.length + 1) 0

/-! ## Semantic actions

Each function transliterates the correspondingly named method of
`InlineParser`.  `esc` is the `escape_url` collaborator and `rend` the
recursive `self.render` entry point. -/

/-- `parse_escape`: `text = m.group(0)[1:]; return 'text', text`. -/
def parse_escape (whole : List Char) (st : State) : Token × State :=
  (.text (str (whole.drop 1)), st)

/-- The destination computation of `parse_auto_link`: prefix `mailto:` when
the body contains `@` and does not already start with `mailto:`
(case-insensitively). -/
def autoLinkDest (text : List Char) : List Char :=
  if text.contains '@' &&
      !(("mailto:".data).isPrefixOf (text.map asciiLower)) then
    "mailto:".data ++ text
  else text

/-- `parse_auto_link`: `return 'link', escape_url(link), text`. -/
def parse_auto_link (esc : String → String) (g1 : List Char) (st : State) :
    Token × State :=
  (.link (esc (str (autoLinkDest g1))) (.raw (str g1)) none, st)

/-- `tokenize_link`: the `_in_link` guard, the recursive render of the link
text between setting and clearing the guard, and the escaped destination. -/
def tokenize_link (esc : String → String)
    (rend : String → State → List Token × State)
    (line : String) (link text : List Char) (title : Option String)
    (st : State) : Token × State :=
  if st.in_link then (.text line, st)
  else
    let p := rend (str text) { st with in_link := true }
    (.link (esc (str link)) (.toks p.1) title, { p.2 with in_link := false })

/-- `link[1:-1]` when the destination is angle-bracket-quoted
(`link.startswith('<') and link.endswith('>')`). -/
def stripAngle (l : List Char) : List Char :=
  if l.head? == some '<' && l.getLast? == some '>' then (l.drop 1).dropLast
  else l

/-- `parse_std_link`: unescape the destination, strip angle brackets,
unescape the title body `title[1:-1]`; emit an `image` when the match
starts with `!`, otherwise resolve through `tokenize_link`. -/
def parse_std_link (esc : String → String)
    (rend : String → State → List Token × State)
    (whole g1 g2 : List Char) (g3 : Option (List Char)) (st : State) :
    Token × State :=
  let link := stripAngle (escapeCharSub g2)
  let title := (g3.map fun t => str (escapeCharSub ((t.drop 1).dropLast)))
  if whole.head? == some '!' then
    (.image (str link) (str g1) title, st)
  else
    tokenize_link esc rend (str whole) link g1 title st

/-- `parse_ref_link` (also the body of `parse_ref_link2`, which delegates
with no second group): normalize the key from group 2 or the text, look it
up in `def_links`; on failure emit the `ESCAPE_CHAR`-unescaped matched
source as text; on success unescape destination and title and proceed as a
standard link or image. -/
def parse_ref_link (esc : String → String)
    (rend : String → State → List Token × State)
    (whole g1 : List Char) (g2 : Option (List Char)) (st : State) :
    Token × State :=
  let key := str (unikey (pyOr g2 g1))
  match lookupLink st.def_links key with
  | none => (.text (str (escapeCharSub whole)), st)
  | some (l, t) =>
    let link := escapeCharSub l.data
    let title := t.map fun ts => str (escapeCharSub ts.data)
    if whole.head? == some '!' then
      (.image (str link) (str g1) title, st)
    else
      tokenize_link esc rend (str whole) link g1 title st

/-- `parse_footnote`: reject keys missing from `def_footnotes`; otherwise
increment `footnote_index`, append the key to `footnotes` and emit the
reference with the new index. -/
def parse_footnote (whole g1 : List Char) (st : State) : Token × State :=
  let key := str (g1.map asciiLower)
  if st.def_footnotes = [] ∨ ¬ key ∈ st.def_footnotes then
    (.text (str whole), st)
  else
    let index := st.footnote_index + 1
    (.footnoteRef key index,
     { st with footnote_index := index, footnotes := st.footnotes ++ [key] })

/-- `parse_emphasis`: strip one delimiter from each end, render the rest. -/
def parse_emphasis (rend : String → State → List Token × State)
    (whole : List Char) (st : State) : Token × State :=
  let p := rend (str ((whole.drop 1).dropLast)) st
  (.emphasis p.1, p.2)

/-- `parse_strong`: strip two delimiters from each end, render the rest. -/
def parse_strong (rend : String → State → List Token × State)
    (whole : List Char) (st : State) : Token × State :=
  let p := rend (str ((whole.drop 2).dropLast.dropLast)) st
  (.strong p.1, p.2)

/-- `parse_codespan`: `re.sub(r'[ \n]+', ' ', m.group(2).strip())`, with no
recursive rendering of the content. -/
def parse_codespan (g2 : List Char) (st : State) : Token × State :=
  (.codespan (str (collapseSpaceNL (pyStrip g2))), st)

/-- `parse_strikethrough`: render group 1. -/
def parse_strikethrough (rend : String → State → List Token × State)
    (g1 : List Char) (st : State) : Token × State :=
  let p := rend (str g1) st
  (.strikethrough p.1, p.2)

/-- `parse_linebreak`: `return 'linebreak',`. -/
def parse_linebreak (st : State) : Token × State := (.linebreak, st)

/-- `parse_inline_html`: the exact matched source, unmodified. -/
def parse_inline_html (whole : List Char) (st : State) : Token × State :=
  (.inlineHtml (str whole), st)

/-- Dispatch one scanned item through its semantic action (the
`parse_text` pseudo-action handles gaps). -/
def applyAction (esc : String → String)
    (rend : String → State → List Token × State) :
    ScanItem → State → Token × State
  | .text t, st => (.text (str t), st)
  | .rule r m, st =>
    match r with
    | .escape => parse_escape m.whole st
    | .inline_html => parse_inline_html m.whole st
    | .auto_link => parse_auto_link esc (m.g1.getD []) st
    | .footnote => parse_footnote m.whole (m.g1.getD []) st
    | .std_link => parse_std_link esc rend m.whole (m.g1.getD []) (m.g2.getD []) m.g3 st
    | .ref_link => parse_ref_link esc rend m.whole (m.g1.getD []) m.g2 st
    | .ref_link2 => parse_ref_link esc rend m.whole (m.g1.getD []) none st
    | .strong => parse_strong rend m.whole st
    | .emphasis => parse_emphasis rend m.whole st
    | .codespan => parse_codespan (m.g2.getD []) st
    | .strikethrough => parse_strikethrough rend (m.g1.getD []) st
    | .linebreak => parse_linebreak st

/-- The `render` driver in tree mode, fuelled by recursion depth: scan the
input with the default rule set and fold every item through its action,
threading the state left to right as the lazy token stream is consumed. -/
def renderFuel (esc : String → String) : Nat → String → State →
    List Token × State
  | 0, _, st => ([], st)
  | n + 1, s, st =>
    (scan RULE_NAMES s.data).foldl
      (fun acc it =>
        let p := applyAction esc (renderFuel esc n) it acc.2
        (acc.1 ++ [p.1], p.2))
      ([], st)

/-- `render(s, state)`: recursion depth is bounded by the input length, so
`length + 1` fuel never runs out. -/
def render (esc : String → String) (s : String) (st : State) :
    List Token × State :=
  renderFuel esc (s.data.length + 1) s st

/-- A fresh state: empty tables, counter 0, guard down. -/
def st0 : State :=
  { def_links := [], def_footnotes := [], footnote_index := 0,
    footnotes := [], in_link := false }

/-- `tokenize_link` under Python exception semantics.  The renderer is
external code and may raise while the link text is rendered; the method has
no `try/finally`, so an exception from `self.render` propagates to the
caller after `state['_in_link'] = True` has already been executed and
before `state['_in_link'] = False` is reached.  The error value carries the
state because the Python state dict is mutated in place and remains visible
to the caller that catches the exception. -/
def tokenize_linkE (esc : String → String)
    (rend : String → State → Except (String × State) (List Token × State))
    (line : String) (link text : List Char) (title : Option String)
    (st : State) : Except (String × State) (Token × State) :=
  if st.in_link then .ok (.text line, st)
  else
    match rend (str text) { st with in_link := true } with
    | .error e => .error e
    | .ok p =>
      .ok (.link (esc (str link)) (.toks p.1) title, { p.2 with in_link := false })

/-- State used in the footnote examples: `def_footnotes = {"a", "b"}`. -/
def stFoot : State := { st0 with def_footnotes := ["a", "b"] }

/-- State whose `_in_link` guard is raised. -/
def stIn : State := { st0 with in_link := true }

/-- State with one link definition, `k ↦ (u, no title)`. -/
def stRef : State := { st0 with def_links := [("k", "u", none)] }

/-! ## Shared helper lemmas -/

/-- A `takeWhile` of the space predicate is a replicated space. -/
theorem takeWhile_space_eq_replicate (l : List Char) :
    l.takeWhile (fun c => c == ' ') =
      List.replicate (l.takeWhile (fun c => c == ' ')).length ' ' := by
  induction l with
  | nil => rfl
  | cons c r ih =>
    by_cases hc : (c == ' ') = true
    · have hc' : c = ' ' := eq_of_beq hc
      subst hc'
      rw [List.takeWhile_cons_of_pos (by simp)]
      simp only [List.length_cons, List.replicate_succ]
      exact congrArg (List.cons ' ') ih
    · rw [List.takeWhile_cons_of_neg (by simpa using hc)]
      rfl

/-- Shape of a `linebreakCore` match: a backslash-newline, or at least two
spaces followed by a newline. -/
theorem linebreakCore_shape (rest m : List Char)
    (h : linebreakCore rest = some m) :
    m = ['\\', '\n'] ∨ ∃ k, 2 ≤ k ∧ m = List.replicate k ' ' ++ ['\n'] := by
  unfold linebreakCore at h
  split at h
  · exact Or.inl (Option.some.inj h).symm
  · split at h
    · rename_i hlen
      split at h
      · refine Or.inr ⟨(rest.takeWhile (fun c => c == ' ')).length, hlen, ?_⟩
        rw [← Option.some.inj h]
        rw [takeWhile_space_eq_replicate rest]
        simp
      · exact absurd h (by simp)
    · exact absurd h (by simp)

/-! ## Claim C1 -/

/-- Claim C1, counterexample.  With `def_footnotes = \x7b"a","b"\x7d`,
rendering `"[^a] text [^b] more [^a]"` assigns index 1 to `a` and 2 to `b`,
but the second `[^a]` is assigned the fresh index 3 — not the claimed reuse
of index 1 — and `"a"` is appended to `state.footnotes` a second time. -/
theorem footnote_index_reuse_refuted :
    render id "[^a] text [^b] more [^a]" stFoot =
      ([Token.footnoteRef "a" 1, .text " text ", .footnoteRef "b" 2,
        .text " more ", .footnoteRef "a" 3],
       { stFoot with footnote_index := 3, footnotes := ["a", "b", "a"] })
    ∧ (3 : Nat) ≠ 1 ∧ stFoot.def_footnotes = ["a", "b"] :=
  ⟨rfl, by decide, rfl⟩

/-- Claim C1 (amended): every occurrence of a valid footnote key — first or
repeated — increments `footnote_index` and appends the key to
`state.footnotes`; `parse_footnote` never reuses a previously assigned
index for a repeated key. -/
theorem parse_footnote_increments_every_occurrence
    (whole g1 : List Char) (st : State)
    (h : str (g1.map asciiLower) ∈ st.def_footnotes) :
    parse_footnote whole g1 st =
      (.footnoteRef (str (g1.map asciiLower)) (st.footnote_index + 1),
       { st with footnote_index := st.footnote_index + 1,
                 footnotes := st.footnotes ++ [str (g1.map asciiLower)] }) := by
  unfold parse_footnote
  rw [if_neg (not_or.mpr ⟨List.ne_nil_of_mem h, not_not_intro h⟩)]

/-- Witness for `parse_footnote_increments_every_occurrence` at the key
`"a"` in `stFoot`. -/
theorem parse_footnote_increments_every_occurrence_witness :
    str ("a".data.map asciiLower) ∈ stFoot.def_footnotes ∧
    parse_footnote "[^a]".data "a".data stFoot =
      (.footnoteRef "a" 1, { stFoot with footnote_index := 1, footnotes := ["a"] }) :=
  ⟨by decide,
   parse_footnote_increments_every_occurrence "[^a]".data "a".data stFoot (by decide)⟩

/-! ## Claim C2 -/

/-- Claim C2: a link inside link text is downgraded to literal text.
`parse("[a [b](u2) c](u1)")` yields one outer link with destination
`escape_url("u1")` whose children contain the literal text `"[b](u2)"` and
no nested link token; and whenever the `_in_link` guard is set,
`tokenize_link` returns the whole matched source as a text token with the
state untouched. -/
theorem no_nested_links :
    (∀ esc : String → String,
      render esc "[a [b](u2) c](u1)" st0 =
        ([Token.link (esc "u1")
            (.toks [.text "a ", .text "[b](u2)", .text " c"]) none], st0))
    ∧ (∀ (esc : String → String)
        (rend : String → State → List Token × State)
        (line : String) (link text : List Char) (title : Option String)
        (st : State), st.in_link = true →
        tokenize_link esc rend line link text title st = (.text line, st)) :=
  ⟨fun _ => rfl, by
    intro esc rend line link text title st h
    unfold tokenize_link
    rw [h]
    rfl⟩

/-- Witness for the guard clause of `no_nested_links` at a raised guard. -/
theorem no_nested_links_witness :
    stIn.in_link = true ∧
    tokenize_link id (fun _ s => ([], s)) "[b](u2)" "u2".data "b".data none stIn =
      (.text "[b](u2)", stIn) :=
  ⟨rfl, no_nested_links.2 id (fun _ s => ([], s)) "[b](u2)" "u2".data "b".data none stIn rfl⟩

/-! ## Claim C3 -/

/-- Claim C3, counterexample.  When the inner render raises, the exception
propagates out of `tokenize_link` (there is no `try/finally`) with
`state['_in_link']` still `True`, although it was `False` on entry: the
guard is not restored on exceptional exit. -/
theorem in_link_not_restored_on_exception :
    tokenize_linkE id (fun _ s => .error ("renderer error", s))
        "[x](u)" "u".data "x".data none st0 =
      .error ("renderer error", { st0 with in_link := true })
    ∧ ({ st0 with in_link := true }).in_link ≠ st0.in_link :=
  ⟨rfl, by decide⟩

/-- Claim C3 (amended): on every normal exit of `tokenize_link` the
`_in_link` guard equals its entry value (the guard clause leaves the state
untouched, and the link branch can only run with the guard down and lowers
it again); on exceptional exit the guard is not restored. -/
theorem in_link_restored_only_on_normal_exit :
    (∀ (esc : String → String)
      (rend : String → State → Except (String × State) (List Token × State))
      (line : String) (link text : List Char) (title : Option String)
      (st : State) (out : Token × State),
      tokenize_linkE esc rend line link text title st = .ok out →
      out.2.in_link = st.in_link)
    ∧ (∀ (esc : String → String)
        (rend : String → State → List Token × State)
        (line : String) (link text : List Char) (title : Option String)
        (st : State),
        ((tokenize_link esc rend line link text title st).2).in_link = st.in_link) := by
  constructor
  · intro esc rend line link text title st out h
    unfold tokenize_linkE at h
    by_cases hst : st.in_link
    · rw [if_pos hst] at h
      rw [← (Except.ok.inj h)]
    · rw [if_neg hst] at h
      rcases hr : rend (str text) { st with in_link := true } with e | p
      · rw [hr] at h; exact absurd h (by simp)
      · rw [hr] at h
        rw [← (Except.ok.inj h)]
        simp [Bool.eq_false_iff.mpr hst]
  · intro esc rend line link text title st
    unfold tokenize_link
    by_cases hst : st.in_link
    · rw [if_pos hst]
    · rw [if_neg hst]
      simp [Bool.eq_false_iff.mpr hst]

/-- Witness for `in_link_restored_only_on_normal_exit` at a normally
returning inner render. -/
theorem in_link_restored_only_on_normal_exit_witness :
    ((Token.link "u" (.toks []) none, st0) : Token × State).2.in_link = st0.in_link :=
  in_link_restored_only_on_normal_exit.1 id (fun _ s => .ok ([], s))
    "[x](u)" "u".data "x".data none st0 (Token.link "u" (.toks []) none, st0) rfl

/-! ## Claim C4 -/

/-- Claim C4, counterexample.  The autolink body `http://a@b` carries an
explicit `http:` scheme, yet because it contains `@` and does not start
with `mailto:` the action still prefixes `mailto:` — the code checks only
for an existing `mailto:` prefix, not for an arbitrary scheme. -/
theorem autolink_prefixes_despite_scheme :
    render id "<http://a@b>" st0 =
      ([Token.link ("mailto:" ++ "http://a@b") (.raw "http://a@b") none], st0)
    ∧ "http://a@b".data.take 5 = "http:".data
    ∧ ("mailto:" ++ "http://a@b") ≠ "http://a@b" :=
  ⟨rfl, rfl, by decide⟩

/-- Claim C4 (amended): the autolink destination is prefixed with
`mailto:` exactly when the body contains `@` and does not already start
(case-insensitively) with `mailto:` — any other explicit scheme does not
prevent the prefix; otherwise the body is kept; the emitted link's text is
the original body and its destination is `escape_url` of the (possibly
prefixed) body. -/
theorem autolink_mailto_prefix_rule :
    ∀ (esc : String → String) (g1 : List Char) (st : State),
      parse_auto_link esc g1 st =
        (.link (esc (str (autoLinkDest g1))) (.raw (str g1)) none, st)
      ∧ (autoLinkDest g1 = "mailto:".data ++ g1 ∨ autoLinkDest g1 = g1)
      ∧ (autoLinkDest g1 = "mailto:".data ++ g1 ↔
          (g1.contains '@' &&
            !(("mailto:".data).isPrefixOf (g1.map asciiLower))) = true) := by
  intro esc g1 st
  refine ⟨rfl, ?_, ?_⟩
  · unfold autoLinkDest
    split
    · exact Or.inl rfl
    · exact Or.inr rfl
  · constructor
    · intro h
      by_cases hc : (g1.contains '@' &&
          !(("mailto:".data).isPrefixOf (g1.map asciiLower))) = true
      · exact hc
      · rw [autoLinkDest, if_neg hc] at h
        have := congrArg List.length h
        simp at this
        omega
    · intro h
      rw [autoLinkDest, if_pos h]

/-! ## Claim C5 -/

/-- Claim C5, counterexample.  With the escaping collaborator
`fun s => s ++ "X"`, `parse("![a](u)")` emits `Image` whose destination is
the raw `"u"`, not `"u" ++ "X"`: image destinations are never passed
through `escape_url`, contradicting "every resolved link, image, and
autolink". -/
theorem image_destination_not_escaped :
    render (fun s => s ++ "X") "![a](u)" st0 = ([Token.image "u" "a" none], st0)
    ∧ (fun s : String => s ++ "X") "u" ≠ "u" :=
  ⟨rfl, by decide⟩

/-- Claim C5 (amended): `escape_url` is applied exactly once to the
destination of every resolved link (`tokenize_link`) and autolink, and
never to titles or link text; but the destination of an `Image` token —
from both the standard form (`parse_std_link`) and the reference form
(`parse_ref_link`) — is emitted without any `escape_url` application (it
only undergoes punctuation unescaping, and angle-bracket stripping in the
standard form), independently of the escaping collaborator. -/
theorem escape_url_once_links_autolinks_not_images :
    (∀ (esc : String → String)
      (rend : String → State → List Token × State)
      (line : String) (link text : List Char) (title : Option String)
      (st : State), st.in_link = false →
      tokenize_link esc rend line link text title st =
        (.link (esc (str link))
           (.toks (rend (str text) { st with in_link := true }).1) title,
         { (rend (str text) { st with in_link := true }).2 with in_link := false }))
    ∧ (∀ (esc : String → String) (g1 : List Char) (st : State),
        (parse_auto_link esc g1 st).1 =
          .link (esc (str (autoLinkDest g1))) (.raw (str g1)) none)
    ∧ (∀ (esc esc' : String → String)
        (rend rend' : String → State → List Token × State)
        (whole g1 g2 : List Char) (g3 : Option (List Char)) (st st' : State),
        whole.head? = some '!' →
        parse_std_link esc rend whole g1 g2 g3 st =
          (.image (str (stripAngle (escapeCharSub g2))) (str g1)
             (g3.map fun t => str (escapeCharSub ((t.drop 1).dropLast))), st)
        ∧ (parse_std_link esc rend whole g1 g2 g3 st).1 =
            (parse_std_link esc' rend' whole g1 g2 g3 st').1)
    ∧ (∀ (esc esc' : String → String)
        (rend rend' : String → State → List Token × State)
        (whole g1 : List Char) (g2 : Option (List Char))
        (l : String) (t : Option String) (st : State),
        whole.head? = some '!' →
        lookupLink st.def_links (str (unikey (pyOr g2 g1))) = some (l, t) →
        parse_ref_link esc rend whole g1 g2 st =
          (.image (str (escapeCharSub l.data)) (str g1)
             (t.map fun ts => str (escapeCharSub ts.data)), st)
        ∧ (parse_ref_link esc rend whole g1 g2 st).1 =
            (parse_ref_link esc' rend' whole g1 g2 st).1) := by
  refine ⟨?_, fun _ _ _ => rfl, ?_, ?_⟩
  · intro esc rend line link text title st h
    unfold tokenize_link
    rw [h]
    rfl
  · intro esc esc' rend rend' whole g1 g2 g3 st st' h
    constructor
    · unfold parse_std_link
      rw [h]
      rfl
    · unfold parse_std_link
      rw [h]
      rfl
  · intro esc esc' rend rend' whole g1 g2 l t st h hl
    constructor
    · simp [parse_ref_link, hl, h]
    · simp [parse_ref_link, hl, h]

/-- Witness for `escape_url_once_links_autolinks_not_images`: the link
clause at a lowered guard, the standard-form image clause at `![a](u)`'s
match data, and the reference-form image clause at `![x][k]`'s match data
resolved through `stRef`, under the marking collaborator
`fun s => s ++ "X"` (the image destinations stay unmarked). -/
theorem escape_url_once_links_autolinks_not_images_witness :
    st0.in_link = false ∧
    tokenize_link id (fun _ s => ([], s)) "[x](u)" "u".data "x".data none st0 =
      (.link "u" (.toks []) none, st0) ∧
    "![a](u)".data.head? = some '!' ∧
    parse_std_link (fun s => s ++ "X") (fun _ s => ([], s))
        "![a](u)".data "a".data "u".data none st0 =
      (.image "u" "a" none, st0) ∧
    lookupLink stRef.def_links (str (unikey (pyOr (some "k".data) "x".data))) =
      some ("u", none) ∧
    parse_ref_link (fun s => s ++ "X") (fun _ s => ([], s))
        "![x][k]".data "x".data (some "k".data) stRef =
      (.image "u" "x" none, stRef) :=
  ⟨rfl,
   escape_url_once_links_autolinks_not_images.1 id (fun _ s => ([], s))
     "[x](u)" "u".data "x".data none st0 rfl,
   rfl,
   (escape_url_once_links_autolinks_not_images.2.2.1 (fun s => s ++ "X") id
     (fun _ s => ([], s)) (fun _ s => ([], s))
     "![a](u)".data "a".data "u".data none st0 st0 rfl).1,
   rfl,
   (escape_url_once_links_autolinks_not_images.2.2.2 (fun s => s ++ "X") id
     (fun _ s => ([], s)) (fun _ s => ([], s))
     "![x][k]".data "x".data (some "k".data) "u" none stRef rfl rfl).1⟩

/-! ## Claim C6 -/

/-- Claim C6, counterexample.  With empty `def_links`, `parse("[f\*oo]")`
emits `Text("[f*oo]")`: the unresolved-reference fallback runs the matched
source through `ESCAPE_CHAR.sub` and so does not reproduce the original
bracketed source exactly when it contains a backslash escape. -/
theorem ref_fallback_unescapes_source :
    render id "[f\\*oo]" st0 = ([Token.text "[f*oo]"], st0)
    ∧ "[f*oo]" ≠ "[f\\*oo]" :=
  ⟨rfl, by decide⟩

/-- Claim C6 (amended): an unresolved reference link or footnote is not an
error: the reference-link action emits the matched source with punctuation
backslash-escapes removed (`ESCAPE_CHAR.sub`) as a `Text` token — the
exact source when no escape is present, as in `parse("[foo]") =
Text("[foo]")` — the footnote action emits the exact matched source, and
both leave the parse state unchanged. -/
theorem unresolved_reference_degrades_to_text :
    (∀ esc : String → String,
      render esc "[foo]" st0 = ([Token.text "[foo]"], st0))
    ∧ (∀ (esc : String → String)
        (rend : String → State → List Token × State)
        (whole g1 : List Char) (g2 : Option (List Char)) (st : State),
        lookupLink st.def_links (str (unikey (pyOr g2 g1))) = none →
        parse_ref_link esc rend whole g1 g2 st =
          (.text (str (escapeCharSub whole)), st))
    ∧ (∀ (whole g1 : List Char) (st : State),
        (st.def_footnotes = [] ∨ ¬ str (g1.map asciiLower) ∈ st.def_footnotes) →
        parse_footnote whole g1 st = (.text (str whole), st)) := by
  refine ⟨fun _ => rfl, ?_, ?_⟩
  · intro esc rend whole g1 g2 st h
    simp [parse_ref_link, h]
  · intro whole g1 st h
    unfold parse_footnote
    rw [if_pos h]

/-- Witness for `unresolved_reference_degrades_to_text` on the empty
tables of `st0`. -/
theorem unresolved_reference_degrades_to_text_witness :
    lookupLink st0.def_links (str (unikey (pyOr none "foo".data))) = none ∧
    parse_ref_link id (fun _ s => ([], s)) "[foo]".data "foo".data none st0 =
      (.text "[foo]", st0) ∧
    (st0.def_footnotes = [] ∨ ¬ str ("z".data.map asciiLower) ∈ st0.def_footnotes) ∧
    parse_footnote "[^z]".data "z".data st0 = (.text "[^z]", st0) :=
  ⟨rfl,
   unresolved_reference_degrades_to_text.2.1 id (fun _ s => ([], s))
     "[foo]".data "foo".data none st0 rfl,
   Or.inl rfl,
   unresolved_reference_degrades_to_text.2.2 "[^z]".data "z".data st0 (Or.inl rfl)⟩

/-! ## Claim C7 -/

/-- Claim C7: a code span is emitted verbatim.  The rendered result of
"`*not emphasis*`" (backticks around the asterisked text) is the single
token `Codespan("*not emphasis*")` with no emphasis token inside; in
general the codespan action emits the matched inner text stripped of
leading/trailing whitespace with internal space/newline runs collapsed to
one space, leaves the state unchanged, and performs no recursive inline
parsing of the content. -/
theorem codespan_verbatim :
    (∀ esc : String → String,
      render esc "\x60*not emphasis*\x60" st0 =
        ([Token.codespan "*not emphasis*"], st0))
    ∧ (∀ (g2 : List Char) (st : State),
        parse_codespan g2 st =
          (.codespan (str (collapseSpaceNL (pyStrip g2))), st)) :=
  ⟨fun _ => rfl, fun _ _ => rfl⟩

/-! ## Claim C8 -/

/-- Claim C8: every match of the hard-linebreak rule is a trailing
backslash or a run of at least two trailing spaces followed by a newline,
and the rule never matches when that newline ends the input (the matched
newline is always followed by further input); the action emits a
`Linebreak` token, and the scanner consumes the whole match including the
trailing whitespace/backslash and the newline, as the concrete render of
`"a  \nb"` shows. -/
theorem linebreak_shape_and_not_at_end :
    (∀ rest m : List Char, matchLinebreak rest = some m →
      (m = ['\\', '\n'] ∨ ∃ k, 2 ≤ k ∧ m = List.replicate k ' ' ++ ['\n'])
      ∧ rest.drop m.length ≠ [])
    ∧ (∀ esc : String → String,
        render esc "a  \nb" st0 = ([Token.text "a", .linebreak, .text "b"], st0))
    ∧ (∀ st : State, parse_linebreak st = (.linebreak, st)) := by
  refine ⟨?_, fun _ => rfl, fun _ => rfl⟩
  intro rest m h
  unfold matchLinebreak at h
  split at h
  · exact absurd h (by simp)
  · rename_i m' hcore
    split at h
    · exact absurd h (by simp)
    · rename_i hall
      rw [Option.some.inj h] at hcore hall
      refine ⟨linebreakCore_shape rest m hcore, ?_⟩
      intro hnil
      rw [hnil] at hall
      simp at hall

/-- Witness for `linebreak_shape_and_not_at_end` at the two-space match
inside `"a  \nb"`. -/
theorem linebreak_shape_and_not_at_end_witness :
    ((([' ', ' ', '\n'] : List Char) = ['\\', '\n'] ∨
      ∃ k, 2 ≤ k ∧ ([' ', ' ', '\n'] : List Char) = List.replicate k ' ' ++ ['\n'])
     ∧ "  \nb".data.drop ([' ', ' ', '\n'] : List Char).length ≠ []) :=
  linebreak_shape_and_not_at_end.1 "  \nb".data [' ', ' ', '\n'] rfl

/-! ## Claim C9 -/

/-- Claim C9: a backslash escape yields the literal character.  The render
of `"\*"` is the single token `Text("*")` (never an emphasis), and every
`ESCAPE` match is a backslash plus one ASCII punctuation character whose
action strips the backslash and emits the character as `Text`, leaving the
state unchanged. -/
theorem escape_emits_literal_char :
    (∀ esc : String → String,
      render esc "\\*" st0 = ([Token.text "*"], st0))
    ∧ (∀ (rest m : List Char) (st : State), matchEscape rest = some m →
        ∃ c, isPunct c = true ∧ m = ['\\', c]
          ∧ parse_escape m st = (.text (str [c]), st)) := by
  refine ⟨fun _ => rfl, ?_⟩
  intro rest m st h
  unfold matchEscape at h
  split at h
  · rename_i c _
    split at h
    · rename_i hp
      exact ⟨c, hp, (Option.some.inj h).symm, by rw [← Option.some.inj h]; rfl⟩
    · exact absurd h (by simp)
  · exact absurd h (by simp)

/-- Witness for `escape_emits_literal_char` at the match of `"\*"`. -/
theorem escape_emits_literal_char_witness :
    ∃ c, isPunct c = true ∧ (['\\', '*'] : List Char) = ['\\', c]
      ∧ parse_escape ['\\', '*'] st0 = (.text (str [c]), st0) :=
  escape_emits_literal_char.2 "\\*".data ['\\', '*'] st0 rfl

/-! ## Claim C10 -/

/-- Claim C10: every image construct is emitted with the raw matched label
as its alt text (no recursive inline parsing — the alt slot holds the
unrendered string), without consulting or setting the `_in_link` guard:
the emitted token does not depend on the incoming state at all, the state
is returned unchanged, and an image inside a link's text therefore
survives as an `Image` token, as the concrete render of
`"[a ![b](u2) c](u1)"` shows; the reference-form image behaves the same
once its key resolves. -/
theorem image_alt_raw_and_ignores_in_link :
    (∀ esc : String → String,
      render esc "[a ![b](u2) c](u1)" st0 =
        ([Token.link (esc "u1")
            (.toks [.text "a ", .image "u2" "b" none, .text " c"]) none], st0))
    ∧ (∀ (esc : String → String)
        (rend : String → State → List Token × State)
        (whole g1 g2 : List Char) (g3 : Option (List Char)) (st : State),
        whole.head? = some '!' →
        parse_std_link esc rend whole g1 g2 g3 st =
          (.image (str (stripAngle (escapeCharSub g2))) (str g1)
             (g3.map fun t => str (escapeCharSub ((t.drop 1).dropLast))), st)
        ∧ ∀ st' : State,
            (parse_std_link esc rend whole g1 g2 g3 st).1 =
              (parse_std_link esc rend whole g1 g2 g3 st').1)
    ∧ (∀ (esc : String → String)
        (rend : String → State → List Token × State)
        (whole g1 : List Char) (g2 : Option (List Char))
        (l : String) (t : Option String) (st : State),
        whole.head? = some '!' →
        lookupLink st.def_links (str (unikey (pyOr g2 g1))) = some (l, t) →
        parse_ref_link esc rend whole g1 g2 st =
          (.image (str (escapeCharSub l.data)) (str g1)
             (t.map fun ts => str (escapeCharSub ts.data)), st)) := by
  refine ⟨fun _ => rfl, ?_, ?_⟩
  · intro esc rend whole g1 g2 g3 st h
    constructor
    · unfold parse_std_link
      rw [h]
      rfl
    · intro st'
      unfold parse_std_link
      rw [h]
      rfl
  · intro esc rend whole g1 g2 l t st h hl
    simp [parse_ref_link, hl, h]

/-- Witness for `image_alt_raw_and_ignores_in_link` at `![a](u)`'s match
data (standard form) and `![x][k]`'s match data resolved through
`stRef` (reference form), including a raised-guard state on the
independence clause. -/
theorem image_alt_raw_and_ignores_in_link_witness :
    "![a](u)".data.head? = some '!' ∧
    parse_std_link id (fun _ s => ([], s)) "![a](u)".data "a".data "u".data none stIn =
      (.image "u" "a" none, stIn) ∧
    lookupLink stRef.def_links (str (unikey (pyOr (some "k".data) "x".data))) =
      some ("u", none) ∧
    parse_ref_link id (fun _ s => ([], s)) "![x][k]".data "x".data
        (some "k".data) stRef = (.image "u" "x" none, stRef) :=
  ⟨rfl,
   (image_alt_raw_and_ignores_in_link.2.1 id (fun _ s => ([], s))
     "![a](u)".data "a".data "u".data none stIn rfl).1,
   rfl,
   image_alt_raw_and_ignores_in_link.2.2 id (fun _ s => ([], s))
     "![x][k]".data "x".data (some "k".data) "u" none stRef rfl rfl⟩
